import Mathlib

/-!
Shallow embedding of the multi-user portfolio backend (`src/main.py`,
`src/schemas.py`) over a document store.  Documents are association lists of
string keys to BSON-like values; each HTTP operation of the backend becomes a
Lean function on an explicit `Store` state.  The store adapter itself
(`database.create_document` and the query primitives) is not part of the
repository sources, so it is modelled from the specification (§3, §4.1):
`create` serializes the full set of declared fields of a schema object
(including defaults), appends the document with a fresh store-assigned
identifier, and returns that identifier as an opaque string; sorts are
stable with ties retaining store order.
-/

namespace Portfolio

/-- BSON-like values stored in documents.  Composite values (`vDict`, `vList`)
only ever carry string entries in this API (`tags : List[str]`, and the spec's
`socials` is a mapping of string keys to string values). -/
inductive Value where
  | vNull
  | vNum (n : Nat)
  | vStr (s : String)
  | vDict (fields : List (String × String))
  | vList (elems : List String)
  | vOid (n : Nat)
  | vBool (b : Bool)
  | vTime (t : Nat)
deriving DecidableEq, Repr

/-- BSON canonical type rank (Null < Numbers < String < Object < Array <
ObjectId < Boolean < Date), used by the store when sorting across types. -/
def typeRank : Value → Nat
  | .vNull => 0
  | .vNum _ => 1
  | .vStr _ => 2
  | .vDict _ => 3
  | .vList _ => 4
  | .vOid _ => 5
  | .vBool _ => 6
  | .vTime _ => 7

/-- Numeric content of a value, for same-type comparison of the non-string
scalar types (booleans compare as 0/1). -/
def numKey : Value → Nat
  | .vNum n => n
  | .vOid n => n
  | .vBool b => cond b 1 0
  | .vTime t => t
  | _ => 0

/-- Three-way comparison on naturals. -/
def cmpN (m n : Nat) : Ordering :=
  if m < n then .lt else if n < m then .gt else .eq

/-- Three-way comparison on strings (lexicographic). -/
def cmpS (s t : String) : Ordering :=
  if s < t then .lt else if t < s then .gt else .eq

/-- Three-way comparison on values: by BSON type rank first, then within the
type (strings lexicographically, the other scalars numerically; composite
values of equal rank are treated as ties, since the backend never sorts by a
composite field). -/
def cmpValue (a b : Value) : Ordering :=
  match cmpN (typeRank a) (typeRank b) with
  | .eq =>
    match a, b with
    | .vStr s, .vStr t => cmpS s t
    | _, _ => cmpN (numKey a) (numKey b)
  | o => o

/-- Comparison on optional values: an absent field sorts like null. -/
def cmpOV (a b : Option Value) : Ordering :=
  cmpValue (a.getD .vNull) (b.getD .vNull)

theorem cmpN_eq_lt {m n : Nat} : cmpN m n = .lt ↔ m < n := by
  unfold cmpN
  split
  · simp [*]
  · split <;> simp <;> omega

theorem cmpS_eq_lt {s t : String} : cmpS s t = .lt ↔ s < t := by
  unfold cmpS
  split
  · simp [*]
  · split
    · constructor
      · intro h; cases h
      · intro h; exact absurd h (by assumption)
    · constructor
      · intro h; cases h
      · intro h; exact absurd h (by assumption)

theorem cmpValue_irrefl (a : Value) : cmpValue a a ≠ .lt := by
  intro h
  unfold cmpValue at h
  have hr : cmpN (typeRank a) (typeRank a) = .eq := by
    unfold cmpN; simp
  rw [hr] at h
  cases a <;> simp only at h <;>
    first
      | exact absurd (cmpN_eq_lt.mp h) (by omega)
      | exact absurd (cmpS_eq_lt.mp h) (lt_irrefl _)

theorem cmpValue_asymm {a b : Value} (h : cmpValue a b = .lt) :
    cmpValue b a ≠ .lt := by
  intro h'
  unfold cmpValue at h h'
  rcases Nat.lt_trichotomy (typeRank a) (typeRank b) with hlt | heq | hgt
  · have h1 : cmpN (typeRank b) (typeRank a) = .gt := by
      unfold cmpN
      rw [if_neg (by omega), if_pos hlt]
    rw [h1] at h'
    exact Ordering.noConfusion h'
  · have h1 : cmpN (typeRank a) (typeRank b) = .eq := by
      unfold cmpN; rw [heq]; simp
    have h2 : cmpN (typeRank b) (typeRank a) = .eq := by
      unfold cmpN; rw [heq]; simp
    rw [h1] at h
    rw [h2] at h'
    cases a <;> cases b <;> simp only at h h' <;>
      first
        | omega
        | (exact absurd (cmpN_eq_lt.mp h) (by have := cmpN_eq_lt.mp h'; omega))
        | (exact absurd (cmpS_eq_lt.mp h') (lt_asymm (cmpS_eq_lt.mp h)))
  · have h1 : cmpN (typeRank a) (typeRank b) = .gt := by
      unfold cmpN
      rw [if_neg (by omega), if_pos hgt]
    rw [h1] at h
    exact Ordering.noConfusion h

theorem cmpValue_not_lt_trans {a b c : Value}
    (hab : cmpValue a b ≠ .lt) (hbc : cmpValue b c ≠ .lt) :
    cmpValue a c ≠ .lt := by
  intro hac
  unfold cmpValue at hab hbc hac
  rcases Nat.lt_trichotomy (typeRank a) (typeRank c) with hlt | heq | hgt
  · -- rank a < rank c: then rank a < rank b or rank b < rank c leads to .lt
    rcases Nat.lt_or_ge (typeRank a) (typeRank b) with h1 | h1
    · have : cmpN (typeRank a) (typeRank b) = .lt := cmpN_eq_lt.mpr h1
      rw [this] at hab
      exact hab rfl
    · have h2 : typeRank b < typeRank c := by omega
      have : cmpN (typeRank b) (typeRank c) = .lt := cmpN_eq_lt.mpr h2
      rw [this] at hbc
      exact hbc rfl
  · -- equal outer ranks on a, c: inner comparison is .lt
    have h1 : cmpN (typeRank a) (typeRank c) = .eq := by
      unfold cmpN; rw [heq]; simp
    rw [h1] at hac
    rcases Nat.lt_trichotomy (typeRank a) (typeRank b) with hb | hb | hb
    · have : cmpN (typeRank a) (typeRank b) = .lt := cmpN_eq_lt.mpr hb
      rw [this] at hab
      exact hab rfl
    · have h2 : cmpN (typeRank a) (typeRank b) = .eq := by
        unfold cmpN; rw [hb]; simp
      have h3 : cmpN (typeRank b) (typeRank c) = .eq := by
        unfold cmpN; rw [← hb, heq]; simp
      rw [h2] at hab
      rw [h3] at hbc
      cases a <;> cases b <;> cases c <;>
        simp only [typeRank] at hb heq <;>
        simp only at hab hbc hac <;>
        first
          | omega
          | (exact absurd (cmpN_eq_lt.mp hac)
              (by
                have h4 : ¬ _ < _ := fun hx => hab (cmpN_eq_lt.mpr hx)
                have h5 : ¬ _ < _ := fun hx => hbc (cmpN_eq_lt.mpr hx)
                omega))
          | (exact absurd (cmpS_eq_lt.mp hac)
              (by
                have h4 : ¬ (_ < _) := fun hx => hab (cmpS_eq_lt.mpr hx)
                have h5 : ¬ (_ < _) := fun hx => hbc (cmpS_eq_lt.mpr hx)
                rw [not_lt] at h4 h5 ⊢
                exact le_trans h5 h4))
    · have : cmpN (typeRank b) (typeRank c) = .lt := cmpN_eq_lt.mpr (by omega)
      rw [this] at hbc
      exact hbc rfl
  · have h1 : cmpN (typeRank a) (typeRank c) = .gt := by
      unfold cmpN; rw [if_neg (by omega), if_pos hgt]
    rw [h1] at hac
    exact Ordering.noConfusion hac

/-- A stored document: an association list of field names to values (Python
dicts have unique keys; every document built by the backend does too). -/
abbrev Doc := List (String × Value)

/-- First value stored under key `k`, like Python `doc.get(k)` /
`doc["k"]`. -/
def Doc.get (d : Doc) (k : String) : Option Value :=
  (d.find? (fun kv => kv.1 == k)).map Prod.snd

/-- MongoDB-style equality filter: every field of `filt` must be present in
`d` with exactly that value (all filters built by the backend use plain
values, never operators). -/
def docMatches (d : Doc) (filt : Doc) : Bool :=
  filt.all (fun kv => Doc.get d kv.1 == some kv.2)

/-- `find_one(filter)`: first document of the collection (in store order)
matching the filter, or none. -/
def findOne (coll : List Doc) (filt : Doc) : Option Doc :=
  coll.find? (fun d => docMatches d filt)

/-- `find(filter)` without sort: all matching documents in store order. -/
def findAll (coll : List Doc) (filt : Doc) : List Doc :=
  coll.filter (fun d => docMatches d filt)

/-- Python truthiness of an optional document: `None` and the empty dict are
falsy, any non-empty dict is truthy (models `if not doc:`). -/
def truthy : Option Doc → Bool
  | none => false
  | some d => !d.isEmpty

/-- Python dict assignment `d[k] = v`: replaces the value in place if the key
exists, otherwise appends the key at the end. -/
def Doc.setField (d : Doc) (k : String) (v : Value) : Doc :=
  if d.any (fun kv => kv.1 == k) then
    d.map (fun kv => if kv.1 == k then (k, v) else kv)
  else d ++ [(k, v)]

/-- Apply `$set` of all fields of `u` to `d`, left to right. -/
def Doc.setFields (d : Doc) (u : Doc) : Doc :=
  u.foldl (fun acc kv => Doc.setField acc kv.1 kv.2) d

/-- Python dict `pop(k)`: remove the key. -/
def Doc.eraseField (d : Doc) (k : String) : Doc :=
  d.filter (fun kv => kv.1 != k)

/-- Descending comparison used by `.sort(key, -1)`: `d1` may precede `d2`
when `d1`'s key does not sort strictly below `d2`'s (absent fields sort as
null). -/
def keyGE (k : String) (d1 d2 : Doc) : Bool :=
  cmpOV (Doc.get d1 k) (Doc.get d2 k) != .lt

/-- `.sort(key, -1)`: stable sort, descending by the given key, ties
retaining store order (spec §4.3). -/
def sortDescBy (k : String) (l : List Doc) : List Doc :=
  l.insertionSort (fun d1 d2 => keyGE k d1 d2 = true)

/-- Lowercase hex digit. -/
def hexChar (n : Nat) : Char :=
  if n < 10 then Char.ofNat (48 + n) else Char.ofNat (87 + n)

/-- `str(ObjectId)`: the identifier rendered as a 24-character lowercase hex
string. -/
def oidToString (n : Nat) : String :=
  let ds := Nat.toDigits 16 n
  String.mk (List.replicate (24 - ds.length) '0' ++ ds)

/-- Value of a hex digit, accepting both cases (as `ObjectId(str)` does). -/
def hexVal (c : Char) : Option Nat :=
  if '0' ≤ c ∧ c ≤ '9' then some (c.toNat - 48)
  else if 'a' ≤ c ∧ c ≤ 'f' then some (c.toNat - 87)
  else if 'A' ≤ c ∧ c ≤ 'F' then some (c.toNat - 55)
  else none

/-- `ObjectId(s)` on a string argument: accepts exactly the 24-character hex
strings, and raises (here: `none`) otherwise. -/
def parseOid (s : String) : Option Nat :=
  if s.length = 24 ∧ s.data.all (fun c => (hexVal c).isSome) then
    some (s.data.foldl (fun a c => a * 16 + (hexVal c).getD 0) 0)
  else none

/-- Python `str(value)` as used on identifier values popped from documents
(the backend only ever applies it to `ObjectId`s; renderings of composite
values are abbreviated since the store never assigns them as identifiers). -/
def pyStr : Value → String
  | .vNull => "None"
  | .vNum n => toString n
  | .vStr s => s
  | .vDict _ => "<dict>"
  | .vList _ => "<list>"
  | .vOid n => oidToString n
  | .vBool b => cond b "True" "False"
  | .vTime t => toString t

/-- `to_public` (src/main.py:29-35): copy the document, and if it carries the
internal `_id`, pop it and store its string form under `id`.  Falsy (absent /
empty) documents are returned unchanged. -/
def to_public (doc : Doc) : Doc :=
  if doc.isEmpty then doc
  else
    match Doc.get doc "_id" with
    | none => doc
    | some v => Doc.setField (Doc.eraseField doc "_id") "id" (.vStr (pyStr v))

/-- Serialization of an optional string field: `None` becomes null. -/
def optStr : Option String → Value
  | some s => .vStr s
  | none => .vNull

/-- Pydantic validation of `User.username` (src/schemas.py:18):
`min_length=3, max_length=30`. -/
def validUsername (u : String) : Bool :=
  decide (3 ≤ u.length) && decide (u.length ≤ 30)

/-- Modelled from the spec: pydantic's `EmailStr` syntax validation (library
code, not in the repository; the spec only requires "valid email syntax").
Abstracted to: exactly one `@`, a non-empty local part, and a non-empty
domain that contains a dot and neither starts nor ends with one. -/
def validEmail (e : String) : Bool :=
  let lp := e.data.takeWhile (fun c => !(c == '@'))
  match e.data.dropWhile (fun c => !(c == '@')) with
  | '@' :: dom =>
    !dom.contains '@' && !lp.isEmpty && !dom.isEmpty && dom.contains '.' &&
      (dom.head? != some '.') && (dom.getLast? != some '.')
  | _ => false

/-- `schemas.User` (src/schemas.py:17-24). -/
structure UserSchema where
  username : String
  email : String
  password_hash : String
  display_name : Option String
  avatar_url : Option String
  bio : Option String
  verified : Bool
deriving DecidableEq, Repr

/-- Pydantic validation performed when constructing `schemas.User`: the
username length bounds and the email syntax (the other fields carry no
constraints). -/
def UserSchema.valid (u : UserSchema) : Bool :=
  validUsername u.username && validEmail u.email

/-- Serialization of a `User` into a document: the full set of declared
fields, in declaration order (spec §4.1). -/
def UserSchema.serialize (u : UserSchema) : Doc :=
  [("username", .vStr u.username), ("email", .vStr u.email),
   ("password_hash", .vStr u.password_hash),
   ("display_name", optStr u.display_name),
   ("avatar_url", optStr u.avatar_url), ("bio", optStr u.bio),
   ("verified", .vBool u.verified)]

/-- `schemas.Profile` (src/schemas.py:26-31). -/
structure ProfileSchema where
  username : String
  headline : Option String
  about : Option String
  socials : Option (List (String × String))
  theme : Option String
deriving DecidableEq, Repr

/-- Serialization of a `Profile` into a document. -/
def ProfileSchema.serialize (p : ProfileSchema) : Doc :=
  [("username", .vStr p.username), ("headline", optStr p.headline),
   ("about", optStr p.about),
   ("socials", match p.socials with | some m => .vDict m | none => .vNull),
   ("theme", optStr p.theme)]

/-- `schemas.Project` (src/schemas.py:33-40). -/
structure ProjectSchema where
  username : String
  title : String
  description : Option String
  tags : List String
  url : Option String
  image_url : Option String
  featured : Bool
deriving DecidableEq, Repr

/-- Serialization of a `Project` into a document. -/
def ProjectSchema.serialize (p : ProjectSchema) : Doc :=
  [("username", .vStr p.username), ("title", .vStr p.title),
   ("description", optStr p.description), ("tags", .vList p.tags),
   ("url", optStr p.url), ("image_url", optStr p.image_url),
   ("featured", .vBool p.featured)]

/-- `schemas.Blog` (src/schemas.py:42-49); `published_at` is a nullable
datetime. -/
structure BlogSchema where
  username : String
  slug : String
  title : String
  content : String
  cover_image : Option String
  published : Bool
  published_at : Option Nat
deriving DecidableEq, Repr

/-- Serialization of a `Blog` into a document. -/
def BlogSchema.serialize (b : BlogSchema) : Doc :=
  [("username", .vStr b.username), ("slug", .vStr b.slug),
   ("title", .vStr b.title), ("content", .vStr b.content),
   ("cover_image", optStr b.cover_image), ("published", .vBool b.published),
   ("published_at",
    match b.published_at with | some t => .vTime t | none => .vNull)]

/-- The document store: one list of documents per collection used by the
backend, in insertion ("store") order, plus the next store-assigned
identifier. -/
structure Store where
  user : List Doc
  profile : List Doc
  project : List Doc
  blog : List Doc
  nextId : Nat
deriving DecidableEq, Repr

/-- The empty store. -/
def Store.empty : Store := ⟨[], [], [], [], 0⟩

/-- Modelled from the spec: `database.create_document` (not under `src/`).
Per §4.1 it serializes the full set of declared fields into a new document,
inserts it (the store keeps insertion order; the server stores `_id` first)
and returns the store-assigned identifier as an opaque string. -/
def insertDoc (coll : List Doc) (nextId : Nat) (fields : Doc) :
    String × List Doc :=
  (oidToString nextId, coll ++ [("_id", Value.vOid nextId) :: fields])

/-- An HTTP error (`HTTPException(status_code, detail)`). -/
structure HErr where
  status : Nat
  detail : String
deriving DecidableEq, Repr

/-- Request body of `POST /auth/signup` (src/main.py:61-65). -/
structure SignupRequest where
  username : String
  email : String
  password : String
  display_name : Option String
deriving DecidableEq, Repr

/-- Response of a successful signup. -/
structure SignupResp where
  id : String
  username : String
deriving DecidableEq, Repr

/-- Python `a or b` on an optional string: `None` and `""` are falsy. -/
def pyOr (o : Option String) (dflt : String) : String :=
  match o with
  | some s => if s.isEmpty then dflt else s
  | none => dflt

/-- `signup` (src/main.py:71-93).  Checks username then email by two
independent lookups; on success persists the `User` (password stored raw)
and then an empty `Profile`, returning the new user's identifier and
username.  A pydantic validation failure when constructing the `User`
surfaces as an unhandled error (HTTP 500) before anything is written. -/
def signup (s : Store) (p : SignupRequest) :
    Except HErr SignupResp × Store :=
  if truthy (findOne s.user [("username", .vStr p.username)]) then
    (.error ⟨400, "Username already exists"⟩, s)
  else if truthy (findOne s.user [("email", .vStr p.email)]) then
    (.error ⟨400, "Email already registered"⟩, s)
  else
    let u : UserSchema :=
      { username := p.username, email := p.email,
        password_hash := p.password,
        display_name := some (pyOr p.display_name p.username),
        avatar_url := none, bio := none, verified := false }
    if u.valid then
      let r1 := insertDoc s.user s.nextId u.serialize
      let prof : ProfileSchema :=
        { username := p.username, headline := some "", about := some "",
          socials := some [], theme := some "holo" }
      let r2 := insertDoc s.profile (s.nextId + 1) prof.serialize
      (.ok ⟨r1.1, p.username⟩,
       { s with user := r1.2, profile := r2.2, nextId := s.nextId + 2 })
    else
      (.error ⟨500, "Internal Server Error"⟩, s)

/-- Request body of `POST /auth/login` (src/main.py:67-69). -/
structure LoginRequest where
  username : String
  password : String
deriving DecidableEq, Repr

/-- Response of a successful login. -/
structure LoginResp where
  ok : Bool
  username : String
deriving DecidableEq, Repr

/-- `login` (src/main.py:95-101): a single lookup on username and raw
password together; no store write (the function does not return a store). -/
def login (s : Store) (p : LoginRequest) : Except HErr LoginResp :=
  if truthy (findOne s.user
      [("username", .vStr p.username), ("password_hash", .vStr p.password)])
  then .ok ⟨true, p.username⟩
  else .error ⟨401, "Invalid credentials"⟩

/-- Response of `GET /profiles/{username}`. -/
structure ProfileResp where
  profile : Doc
  projects : List Doc
  blogs : List Doc
deriving DecidableEq, Repr

/-- `get_profile` (src/main.py:104-115): 404 when no profile matches;
otherwise the public profile joined with the user's projects sorted by
`featured` descending and the published blogs sorted by `published_at`
descending. -/
def get_profile (s : Store) (username : String) : Except HErr ProfileResp :=
  if truthy (findOne s.profile [("username", .vStr username)]) then
    .ok ⟨to_public
           ((findOne s.profile [("username", .vStr username)]).getD []),
         (sortDescBy "featured"
           (findAll s.project [("username", .vStr username)])).map to_public,
         (sortDescBy "published_at"
           (findAll s.blog [("username", .vStr username),
             ("published", .vBool true)])).map to_public⟩
  else .error ⟨404, "Profile not found"⟩

/-- Request body of `PUT /profiles/{username}` (src/main.py:118-122). -/
structure ProfileUpdate where
  headline : Option String
  about : Option String
  socials : Option (List (String × String))
  theme : Option String
deriving DecidableEq, Repr

/-- The merge-patch extracted from the request: the fields present and
non-null, in `model_dump` (declaration) order. -/
def ProfileUpdate.patch (p : ProfileUpdate) : Doc :=
  (match p.headline with | some v => [("headline", Value.vStr v)] | none => []) ++
  (match p.about with | some v => [("about", Value.vStr v)] | none => []) ++
  (match p.socials with | some v => [("socials", Value.vDict v)] | none => []) ++
  (match p.theme with | some v => [("theme", Value.vStr v)] | none => [])

/-- `update_one(filter, {"$set": u})`: apply the `$set` to the first matching
document, leaving the rest of the collection untouched. -/
def updateOne (coll : List Doc) (filt : Doc) (u : Doc) : List Doc :=
  match coll with
  | [] => []
  | d :: rest =>
    if docMatches d filt then Doc.setFields d u :: rest
    else d :: updateOne rest filt u

/-- The profile collection after `update_one({"username": username},
{"$set": patch + updated_at})` on a non-empty patch. -/
def patchedProfiles (s : Store) (username : String) (p : ProfileUpdate)
    (now : Nat) : List Doc :=
  updateOne s.profile [("username", .vStr username)]
    (p.patch ++ [("updated_at", .vTime now)])

/-- `update_profile` (src/main.py:124-135): 404 when no profile matches; a
non-empty patch is `$set` together with a fresh `updated_at`; an empty patch
writes nothing.  The profile is then re-read and returned publicly. -/
def update_profile (s : Store) (username : String) (p : ProfileUpdate)
    (now : Nat) : Except HErr Doc × Store :=
  if truthy (findOne s.profile [("username", .vStr username)]) then
    if p.patch.isEmpty then
      (.ok (to_public
        ((findOne s.profile [("username", .vStr username)]).getD [])), s)
    else
      (.ok (to_public
        ((findOne (patchedProfiles s username p now)
          [("username", .vStr username)]).getD [])),
       { s with profile := patchedProfiles s username p now })
  else (.error ⟨404, "Profile not found"⟩, s)

/-- Request body of `POST /profiles/{username}/projects`
(src/main.py:138-144). -/
structure ProjectCreate where
  title : String
  description : Option String
  tags : List String
  url : Option String
  image_url : Option String
  featured : Bool
deriving DecidableEq, Repr

/-- Response carrying a fresh identifier. -/
structure IdResp where
  id : String
deriving DecidableEq, Repr

/-- `create_project` (src/main.py:146-150): no validation, always inserts. -/
def create_project (s : Store) (username : String) (p : ProjectCreate) :
    Except HErr IdResp × Store :=
  let proj : ProjectSchema :=
    ⟨username, p.title, p.description, p.tags, p.url, p.image_url,
     p.featured⟩
  let r := insertDoc s.project s.nextId proj.serialize
  (.ok ⟨r.1⟩, { s with project := r.2, nextId := s.nextId + 1 })

/-- `list_projects` (src/main.py:152-155). -/
def list_projects (s : Store) (username : String) : List Doc :=
  (sortDescBy "featured"
    (findAll s.project [("username", .vStr username)])).map to_public

/-- `delete_one(filter)`: remove the first matching document, returning the
new collection and the deleted count. -/
def deleteOne (coll : List Doc) (filt : Doc) : List Doc × Nat :=
  match coll with
  | [] => ([], 0)
  | d :: rest =>
    if docMatches d filt then (rest, 1)
    else
      let r := deleteOne rest filt
      (d :: r.1, r.2)

/-- `delete_project` (src/main.py:157-166): 400 on a malformed identifier;
otherwise delete by `_id` AND owner username, with 404 when nothing was
deleted. -/
def delete_project (s : Store) (username : String) (project_id : String) :
    Except HErr Bool × Store :=
  match parseOid project_id with
  | none => (.error ⟨400, "Invalid id"⟩, s)
  | some oid =>
    let r := deleteOne s.project
      [("_id", .vOid oid), ("username", .vStr username)]
    let s' := { s with project := r.1 }
    if r.2 = 0 then (.error ⟨404, "Not found"⟩, s')
    else (.ok true, s')

/-- Request body of `POST /profiles/{username}/blogs`
(src/main.py:169-174). -/
structure BlogCreate where
  slug : String
  title : String
  content : String
  cover_image : Option String
  published : Bool
deriving DecidableEq, Repr

/-- `create_blog` (src/main.py:176-183): stamps `published_at` to the current
time exactly when `published` is true; always inserts (no slug-uniqueness
check). -/
def create_blog (s : Store) (username : String) (p : BlogCreate)
    (now : Nat) : Except HErr IdResp × Store :=
  let blog : BlogSchema :=
    ⟨username, p.slug, p.title, p.content, p.cover_image, p.published,
     if p.published then some now else none⟩
  let r := insertDoc s.blog s.nextId blog.serialize
  (.ok ⟨r.1⟩, { s with blog := r.2, nextId := s.nextId + 1 })

/-- `list_blogs` (src/main.py:185-191): the `published = true` restriction is
applied exactly when `published_only` is true (its default). -/
def list_blogs (s : Store) (username : String) (published_only : Bool) :
    List Doc :=
  let filt : Doc := [("username", .vStr username)] ++
    (if published_only then [("published", .vBool true)] else [])
  (sortDescBy "published_at" (findAll s.blog filt)).map to_public

/-- `get_blog` (src/main.py:193-198): first blog matching username and slug,
404 otherwise. -/
def get_blog (s : Store) (username slug : String) : Except HErr Doc :=
  let blog := findOne s.blog [("username", .vStr username), ("slug", .vStr slug)]
  if truthy blog then .ok (to_public (blog.getD []))
  else .error ⟨404, "Not found"⟩

/-- Store states reachable through the exposed operations (the read-only
endpoints do not touch the store). -/
inductive Reachable : Store → Prop where
  | init : Reachable Store.empty
  | signup (s p) : Reachable s → Reachable (signup s p).2
  | update_profile (s u p now) :
      Reachable s → Reachable (update_profile s u p now).2
  | create_project (s u p) :
      Reachable s → Reachable (create_project s u p).2
  | delete_project (s u pid) :
      Reachable s → Reachable (delete_project s u pid).2
  | create_blog (s u p now) :
      Reachable s → Reachable (create_blog s u p now).2

/-! ## Basic lemmas about documents, filters and lookups -/

theorem Doc.get_nil (k : String) : Doc.get [] k = none := rfl

theorem Doc.get_cons (kv : String × Value) (d : Doc) (k : String) :
    Doc.get (kv :: d) k = if kv.1 == k then some kv.2 else Doc.get d k := by
  unfold Doc.get
  rw [List.find?_cons]
  split <;> simp_all

theorem docMatches_cons {d : Doc} {k : String} {v : Value} {f : Doc} :
    docMatches d ((k, v) :: f) = true ↔
      Doc.get d k = some v ∧ docMatches d f = true := by
  simp [docMatches]

theorem docMatches_singleton {d : Doc} {k : String} {v : Value} :
    docMatches d [(k, v)] = true ↔ Doc.get d k = some v := by
  simp [docMatches]

theorem docMatches_pair {d : Doc} {k1 k2 : String} {v1 v2 : Value} :
    docMatches d [(k1, v1), (k2, v2)] = true ↔
      Doc.get d k1 = some v1 ∧ Doc.get d k2 = some v2 := by
  simp [docMatches]

theorem ne_nil_of_get_eq_some {d : Doc} {k : String} {v : Value}
    (h : Doc.get d k = some v) : d ≠ [] := by
  intro he
  subst he
  exact Option.noConfusion h

theorem truthy_some {d : Doc} : truthy (some d) = true ↔ d ≠ [] := by
  cases d <;> simp [truthy, List.isEmpty]

/-- For a non-empty filter, the truthiness test on `find_one` is exactly
"some document in the collection matches". -/
theorem truthy_findOne {l : List Doc} {k : String} {v : Value} {f : Doc} :
    truthy (findOne l ((k, v) :: f)) = true ↔
      ∃ d ∈ l, docMatches d ((k, v) :: f) = true := by
  unfold findOne
  cases h : l.find? (fun d => docMatches d ((k, v) :: f)) with
  | none =>
    simp only [truthy, Bool.false_eq_true, false_iff]
    intro ⟨d, hd, hm⟩
    exact absurd hm (by simpa using List.find?_eq_none.mp h d hd)
  | some d =>
    have hm := List.find?_some h
    have hmem := List.mem_of_find?_eq_some h
    have hne : d ≠ [] :=
      ne_nil_of_get_eq_some (docMatches_cons.mp hm).1
    rw [truthy_some]
    simp only [hne, ne_eq, not_false_eq_true, true_iff]
    exact ⟨d, hmem, hm⟩

theorem findOne_of_not_exists {l : List Doc} {f : Doc}
    (h : ∀ d ∈ l, ¬ docMatches d f = true) : findOne l f = none :=
  List.find?_eq_none.mpr h

/-! ## Lemmas about field updates and `to_public` -/

theorem Doc.get_map_replace {v : Value} {k : String} :
    ∀ (d : Doc), d.any (fun kv => kv.1 == k) = true →
      Doc.get (d.map (fun kv => if kv.1 == k then (k, v) else kv)) k = some v
  | [], h => by simp at h
  | (k0, v0) :: t, h => by
    by_cases hk : k0 = k
    · subst hk
      simp [Doc.get_cons]
    · have ht : t.any (fun kv => kv.1 == k) = true := by
        simp only [List.any_cons] at h
        simpa [hk] using h
      have hne : (k0 == k) = false := by simp [hk]
      simp only [List.map_cons, hne, Bool.false_eq_true, if_false]
      rw [Doc.get_cons]
      simp only [hne, Bool.false_eq_true, if_false]
      exact Doc.get_map_replace t ht

theorem Doc.get_setField_self (d : Doc) (k : String) (v : Value) :
    Doc.get (d.setField k v) k = some v := by
  unfold Doc.setField
  split
  · exact Doc.get_map_replace d (by assumption)
  · induction d with
    | nil => simp [Doc.get_cons]
    | cons kv t ih =>
      rename_i h
      have hkv : (kv.1 == k) = false := by
        simp only [List.any_cons, Bool.or_eq_true] at h
        simp [show ¬ kv.1 = k from fun he => h (Or.inl (by simp [he]))]
      rw [List.cons_append, Doc.get_cons, hkv]
      simp only [Bool.false_eq_true, if_false]
      exact ih (by
        simp only [List.any_cons, Bool.or_eq_true] at h
        intro hc
        exact h (Or.inr hc))

theorem Doc.get_map_replace_other {v : Value} {k k' : String} (h : ¬ k = k') :
    ∀ (d : Doc),
      Doc.get (d.map (fun kv => if kv.1 == k then (k, v) else kv)) k' =
        Doc.get d k'
  | [] => rfl
  | (k0, v0) :: t => by
    by_cases hk : k0 = k
    · subst hk
      have h1 : (k0 == k0) = true := by simp
      have h2 : (k0 == k') = false := by simp [h]
      rw [List.map_cons]
      simp only [h1, if_true]
      rw [Doc.get_cons, Doc.get_cons]
      simp only [h2, Bool.false_eq_true, if_false]
      exact Doc.get_map_replace_other h t
    · have h1 : (k0 == k) = false := by simp [hk]
      rw [List.map_cons]
      simp only [h1, Bool.false_eq_true, if_false]
      rw [Doc.get_cons, Doc.get_cons]
      split
      · rfl
      · exact Doc.get_map_replace_other h t

theorem Doc.get_setField_other (d : Doc) {k k' : String} (v : Value)
    (h : k' ≠ k) : Doc.get (d.setField k v) k' = Doc.get d k' := by
  unfold Doc.setField
  split
  · exact Doc.get_map_replace_other (fun he => h he.symm) d
  · rw [Doc.get, List.find?_append]
    have h2 : List.find? (fun kv => kv.1 == k') [(k, v)] = none := by
      have hne : (k == k') = false := by
        rw [beq_eq_false_iff_ne]
        exact fun he => h he.symm
      simp [List.find?, hne]
    rw [h2]
    simp [Doc.get]

theorem Doc.get_setFields_not_mem :
    ∀ (u : Doc) (d : Doc) {k : String}, (∀ kv ∈ u, kv.1 ≠ k) →
      Doc.get (d.setFields u) k = Doc.get d k
  | [], d, _, _ => rfl
  | (k0, v0) :: t, d, k, h => by
    have h0 : k0 ≠ k := h (k0, v0) (List.mem_cons_self _ _)
    have ht : ∀ kv ∈ t, kv.1 ≠ k := fun kv hkv =>
      h kv (List.mem_cons_of_mem _ hkv)
    show Doc.get ((d.setField k0 v0).setFields t) k = Doc.get d k
    rw [Doc.get_setFields_not_mem t _ ht,
      Doc.get_setField_other _ _ (fun he => h0 he.symm)]

theorem Doc.get_setFields_mem :
    ∀ (u : Doc) (d : Doc) {k : String} {v : Value},
      (u.map Prod.fst).Nodup → (k, v) ∈ u →
      Doc.get (d.setFields u) k = some v
  | [], _, _, _, _, hm => absurd hm (List.not_mem_nil _)
  | (k0, v0) :: t, d, k, v, hnd, hm => by
    rw [List.map_cons] at hnd
    have hnd' := List.nodup_cons.mp hnd
    rcases List.mem_cons.mp hm with he | hm'
    · rw [Prod.mk.injEq] at he
      obtain ⟨rfl, rfl⟩ := he
      show Doc.get ((d.setField k v).setFields t) k = some v
      rw [Doc.get_setFields_not_mem t _ (by
        intro kv hkv heq
        exact hnd'.1 (List.mem_map.mpr ⟨kv, hkv, heq⟩))]
      exact Doc.get_setField_self d k v
    · show Doc.get ((d.setField k0 v0).setFields t) k = some v
      exact Doc.get_setFields_mem t _ hnd'.2 hm'

theorem Doc.get_eraseField_self (d : Doc) (k : String) :
    Doc.get (d.eraseField k) k = none := by
  unfold Doc.eraseField
  induction d with
  | nil => rfl
  | cons kv t ih =>
    by_cases hk : kv.1 = k
    · simpa [List.filter, hk] using ih
    · have h1 : (kv.1 != k) = true := by simp [hk]
      simp only [List.filter, h1]
      rw [Doc.get_cons]
      simp only [show (kv.1 == k) = false by simp [hk], Bool.false_eq_true,
        if_false]
      exact ih

theorem Doc.get_eraseField_other (d : Doc) {k k' : String} (h : k' ≠ k) :
    Doc.get (d.eraseField k) k' = Doc.get d k' := by
  unfold Doc.eraseField
  induction d with
  | nil => rfl
  | cons kv t ih =>
    by_cases hk : kv.1 = k
    · have h1 : (kv.1 != k) = false := by simp [hk]
      have h2 : (kv.1 == k') = false := by
        rw [hk, beq_eq_false_iff_ne]
        exact fun he => h he.symm
      simp only [List.filter, h1, Doc.get_cons, h2, Bool.false_eq_true,
        if_false]
      exact ih
    · have h1 : (kv.1 != k) = true := by simp [hk]
      simp only [List.filter, h1, Doc.get_cons]
      split
      · rfl
      · exact ih

theorem isEmpty_false_of_ne_nil {d : Doc} (h : d ≠ []) :
    d.isEmpty = false := by
  cases d with
  | nil => exact absurd rfl h
  | cons kv t => rfl

theorem to_public_nil : to_public [] = [] := rfl

theorem to_public_of_no_id {doc : Doc} (h : Doc.get doc "_id" = none) :
    to_public doc = doc := by
  unfold to_public
  split
  · rfl
  · rw [h]

theorem to_public_get_id {doc : Doc} {v : Value}
    (h : Doc.get doc "_id" = some v) :
    Doc.get (to_public doc) "id" = some (.vStr (pyStr v)) := by
  unfold to_public
  rw [isEmpty_false_of_ne_nil (ne_nil_of_get_eq_some h), h]
  simp only [Bool.false_eq_true, if_false]
  exact Doc.get_setField_self _ _ _

theorem to_public_no_internal_id {doc : Doc} {v : Value}
    (h : Doc.get doc "_id" = some v) :
    Doc.get (to_public doc) "_id" = none := by
  unfold to_public
  rw [isEmpty_false_of_ne_nil (ne_nil_of_get_eq_some h), h]
  simp only [Bool.false_eq_true, if_false]
  rw [Doc.get_setField_other _ _ (by decide)]
  exact Doc.get_eraseField_self _ _

theorem to_public_get_other {doc : Doc} {k : String}
    (h1 : k ≠ "_id") (h2 : k ≠ "id") :
    Doc.get (to_public doc) k = Doc.get doc k := by
  unfold to_public
  split
  · rfl
  · cases h : Doc.get doc "_id" with
    | none => rfl
    | some v =>
      rw [Doc.get_setField_other _ _ h2, Doc.get_eraseField_other _ h1]

/-! ## Correctness of the stable descending sort -/

theorem keyGE_iff {k : String} {d1 d2 : Doc} :
    keyGE k d1 d2 = true ↔ cmpOV (Doc.get d1 k) (Doc.get d2 k) ≠ .lt := by
  unfold keyGE
  cases cmpOV (Doc.get d1 k) (Doc.get d2 k) <;> decide

theorem keyGE_total (k : String) (d1 d2 : Doc) :
    keyGE k d1 d2 = true ∨ keyGE k d2 d1 = true := by
  rw [keyGE_iff, keyGE_iff]
  by_cases h : cmpOV (Doc.get d1 k) (Doc.get d2 k) = .lt
  · right
    exact cmpValue_asymm h
  · left
    exact h

theorem keyGE_trans {k : String} {a b c : Doc}
    (h1 : keyGE k a b = true) (h2 : keyGE k b c = true) :
    keyGE k a c = true := by
  rw [keyGE_iff] at h1 h2 ⊢
  exact cmpValue_not_lt_trans h1 h2

theorem keyGE_of_get_eq {k : String} {a b : Doc}
    (h : Doc.get a k = Doc.get b k) : keyGE k a b = true := by
  rw [keyGE_iff, h]
  exact cmpValue_irrefl _

theorem sortDescBy_perm (k : String) (l : List Doc) :
    List.Perm (sortDescBy k l) l :=
  List.perm_insertionSort _ l

theorem sortDescBy_sorted (k : String) (l : List Doc) :
    (sortDescBy k l).Sorted (fun d1 d2 => keyGE k d1 d2 = true) := by
  haveI : IsTotal Doc (fun d1 d2 => keyGE k d1 d2 = true) :=
    ⟨keyGE_total k⟩
  haveI : IsTrans Doc (fun d1 d2 => keyGE k d1 d2 = true) :=
    ⟨fun _ _ _ => keyGE_trans⟩
  exact List.sorted_insertionSort _ l

theorem filter_orderedInsert_key {α β : Type} [DecidableEq β] (key : α → β)
    (r : α → α → Prop) [DecidableRel r]
    (hrefl : ∀ x y, key x = key y → r x y) (a : α) (v : β) :
    ∀ (l : List α),
      (l.orderedInsert r a).filter (fun d => decide (key d = v)) =
        (a :: l).filter (fun d => decide (key d = v))
  | [] => rfl
  | b :: l => by
    by_cases hr : r a b
    · rw [List.orderedInsert, if_pos hr]
    · rw [List.orderedInsert, if_neg hr]
      have hne : key a ≠ key b := fun he => hr (hrefl a b he)
      have hrec := filter_orderedInsert_key key r hrefl a v l
      by_cases ha : key a = v
      · have hb : ¬ key b = v := fun hbv => hne (ha.trans hbv.symm)
        simp [List.filter_cons, hrec, ha, hb]
      · simp [List.filter_cons, hrec, ha]

theorem filter_insertionSort_key {α β : Type} [DecidableEq β] (key : α → β)
    (r : α → α → Prop) [DecidableRel r]
    (hrefl : ∀ x y, key x = key y → r x y) (v : β) :
    ∀ (l : List α),
      (l.insertionSort r).filter (fun d => decide (key d = v)) =
        l.filter (fun d => decide (key d = v))
  | [] => rfl
  | b :: l => by
    rw [List.insertionSort, filter_orderedInsert_key key r hrefl b v _]
    simp only [List.filter_cons, filter_insertionSort_key key r hrefl v l]

/-- Stability of the store's sort: for every value of the sort key, the
documents carrying that value appear in the sorted output in their store
order. -/
theorem sortDescBy_stable (k : String) (l : List Doc) (v : Option Value) :
    (sortDescBy k l).filter (fun d => decide (Doc.get d k = v)) =
      l.filter (fun d => decide (Doc.get d k = v)) :=
  filter_insertionSort_key (fun d => Doc.get d k) _
    (fun _ _ he => keyGE_of_get_eq he) v l

/-! ## Further operation-level lemmas -/

theorem deleteOne_no_match {filt : Doc} :
    ∀ {coll : List Doc}, (∀ d ∈ coll, ¬ docMatches d filt = true) →
      deleteOne coll filt = (coll, 0)
  | [], _ => rfl
  | d :: rest, h => by
    unfold deleteOne
    rw [if_neg (h d (List.mem_cons_self _ _)),
      deleteOne_no_match (fun d' hd' => h d' (List.mem_cons_of_mem _ hd'))]

theorem truthy_eq_false_of_findOne_none {l : List Doc} {f : Doc}
    (h : findOne l f = none) : truthy (findOne l f) = false := by
  rw [h]
  rfl

/-! ## Claims -/

/-- C8: `to_public` is pure and total; an absent (empty) document is returned
unchanged, and on any document carrying the internal `_id` field the result
exposes the identifier as a string under `id`, no longer contains `_id`, and
agrees with the input on every other field. -/
theorem c8_to_public_correct (doc : Doc) :
    (doc = [] → to_public doc = doc) ∧
    (Doc.get doc "_id" = none → to_public doc = doc) ∧
    (∀ v : Value, Doc.get doc "_id" = some v →
      Doc.get (to_public doc) "id" = some (.vStr (pyStr v)) ∧
      Doc.get (to_public doc) "_id" = none ∧
      ∀ k : String, k ≠ "_id" → k ≠ "id" →
        Doc.get (to_public doc) k = Doc.get doc k) :=
  ⟨fun h => by rw [h, to_public_nil], to_public_of_no_id,
   fun _ hv =>
     ⟨to_public_get_id hv, to_public_no_internal_id hv,
      fun _ h1 h2 => to_public_get_other h1 h2⟩⟩

/-- Witness for C8 at a concrete document with an internal identifier. -/
theorem c8_to_public_correct_witness :
    Doc.get (to_public [("_id", Value.vOid 7), ("username", Value.vStr "u")])
        "id" = some (.vStr (pyStr (Value.vOid 7))) ∧
    Doc.get (to_public [("_id", Value.vOid 7), ("username", Value.vStr "u")])
        "_id" = none ∧
    Doc.get (to_public [("_id", Value.vOid 7), ("username", Value.vStr "u")])
        "username" =
      Doc.get [("_id", Value.vOid 7), ("username", Value.vStr "u")]
        "username" := by
  have h :=
    (c8_to_public_correct
      [("_id", Value.vOid 7), ("username", Value.vStr "u")]).2.2
      (Value.vOid 7) (by decide)
  exact ⟨h.1, h.2.1, h.2.2 "username" (by decide) (by decide)⟩

/-- C2: when a stored user already carries the supplied username, signup
fails with 400 Conflict and leaves the store untouched, whatever the supplied
email (the username lookup decides first; the email lookup is never
reached). -/
theorem c2_signup_username_conflict (s : Store) (p : SignupRequest)
    (h : ∃ d ∈ s.user, Doc.get d "username" = some (.vStr p.username)) :
    signup s p = (.error ⟨400, "Username already exists"⟩, s) := by
  unfold signup
  rw [if_pos]
  exact truthy_findOne.mpr (by
    obtain ⟨d, hd, hg⟩ := h
    exact ⟨d, hd, docMatches_singleton.mpr hg⟩)

/-- Witness for C2: signing up again with an existing username (but a fresh
email) is rejected with the username conflict. -/
theorem c2_signup_username_conflict_witness :
    (∃ d ∈ [[("username", Value.vStr "u1"), ("email", Value.vStr "a@b.io")]],
      Doc.get d "username" = some (.vStr "u1")) ∧
    signup ⟨[[("username", Value.vStr "u1"), ("email", Value.vStr "a@b.io")]],
        [], [], [], 5⟩ ⟨"u1", "new@b.io", "pw", none⟩ =
      (.error ⟨400, "Username already exists"⟩,
       ⟨[[("username", Value.vStr "u1"), ("email", Value.vStr "a@b.io")]],
        [], [], [], 5⟩) :=
  ⟨⟨_, List.mem_singleton.mpr rfl, by decide⟩,
   c2_signup_username_conflict _ _
     ⟨_, List.mem_singleton.mpr rfl, by decide⟩⟩

/-- C3: login succeeds — returning `ok` with the supplied username — exactly
when some stored user matches both supplied credentials byte for byte; any
mismatch yields 401 Unauthorized and nothing else (login returns no updated
store: it performs no write). -/
theorem c3_login_iff (s : Store) (p : LoginRequest) :
    (login s p = .ok ⟨true, p.username⟩ ↔
      ∃ d ∈ s.user, Doc.get d "username" = some (.vStr p.username) ∧
        Doc.get d "password_hash" = some (.vStr p.password)) ∧
    (¬ (∃ d ∈ s.user, Doc.get d "username" = some (.vStr p.username) ∧
        Doc.get d "password_hash" = some (.vStr p.password)) →
      login s p = .error ⟨401, "Invalid credentials"⟩) := by
  unfold login
  by_cases h : truthy (findOne s.user
      [("username", .vStr p.username),
       ("password_hash", .vStr p.password)]) = true
  · rw [if_pos h]
    have hex := truthy_findOne.mp h
    constructor
    · constructor
      · intro _
        obtain ⟨d, hd, hm⟩ := hex
        exact ⟨d, hd, docMatches_pair.mp hm⟩
      · intro _
        rfl
    · intro hne
      exact absurd (by
        obtain ⟨d, hd, hm⟩ := hex
        exact ⟨d, hd, docMatches_pair.mp hm⟩) hne
  · rw [if_neg h]
    constructor
    · constructor
      · intro he
        exact absurd he (by simp)
      · intro ⟨d, hd, h1, h2⟩
        exact absurd (truthy_findOne.mpr
          ⟨d, hd, docMatches_pair.mpr ⟨h1, h2⟩⟩) h
    · intro _
      rfl

/-- Witness for C3 at a store holding one user: the matching credentials
log in, and the premise of the mismatch branch fails, as the iff shows. -/
theorem c3_login_iff_witness :
    login ⟨[[("username", Value.vStr "u1"),
             ("password_hash", Value.vStr "pw")]], [], [], [], 1⟩
        ⟨"u1", "pw"⟩ = .ok ⟨true, "u1"⟩ :=
  (c3_login_iff
    ⟨[[("username", Value.vStr "u1"), ("password_hash", Value.vStr "pw")]],
     [], [], [], 1⟩ ⟨"u1", "pw"⟩).1.mpr
    ⟨_, List.mem_singleton.mpr rfl, by decide, by decide⟩

/-- C4: `delete_project` rejects a malformed identifier with 400 before
touching the store, and when the identifier is well formed but no project
carries both that `_id` and that owner username — in particular when the
project belongs to a different user — it fails with 404 and the store is
unchanged. -/
theorem c4_delete_project (s : Store) (username project_id : String) :
    (parseOid project_id = none →
      delete_project s username project_id =
        (.error ⟨400, "Invalid id"⟩, s)) ∧
    (∀ oid, parseOid project_id = some oid →
      (∀ d ∈ s.project,
        ¬ (Doc.get d "_id" = some (.vOid oid) ∧
           Doc.get d "username" = some (.vStr username))) →
      delete_project s username project_id =
        (.error ⟨404, "Not found"⟩, s)) := by
  constructor
  · intro h
    unfold delete_project
    rw [h]
  · intro oid hoid hnone
    unfold delete_project
    rw [hoid]
    have hdel : deleteOne s.project
        [("_id", .vOid oid), ("username", .vStr username)] =
        (s.project, 0) :=
      deleteOne_no_match (fun d hd hm =>
        hnone d hd (docMatches_pair.mp hm))
    simp [hdel]

/-- Witness for C4: a valid identifier owned by user "u2" cannot be deleted
by "u1" — 404 and the project is still there. -/
theorem c4_delete_project_witness :
    delete_project
        ⟨[], [], [[("_id", Value.vOid 0), ("username", Value.vStr "u2"),
                   ("title", Value.vStr "t")]], [], 1⟩
        "u1" "000000000000000000000000" =
      (.error ⟨404, "Not found"⟩,
       ⟨[], [], [[("_id", Value.vOid 0), ("username", Value.vStr "u2"),
                  ("title", Value.vStr "t")]], [], 1⟩) :=
  (c4_delete_project _ "u1" "000000000000000000000000").2 0
    (by decide)
    (by
      intro d hd hcontra
      rw [List.mem_singleton.mp hd] at hcontra
      exact absurd hcontra.2 (by decide))

/-- On a store with no username or email conflict and a payload passing
pydantic validation, `signup` returns exactly the new identifier and
username, appending one user document and one profile document. -/
theorem signup_success_eq (s : Store) (p : SignupRequest)
    (hfu : findOne s.user [("username", .vStr p.username)] = none)
    (hfe : findOne s.user [("email", .vStr p.email)] = none)
    (hva : validUsername p.username = true)
    (hve : validEmail p.email = true) :
    signup s p =
      (.ok ⟨oidToString s.nextId, p.username⟩,
       { s with
         user := s.user ++ [("_id", .vOid s.nextId) ::
           UserSchema.serialize ⟨p.username, p.email, p.password,
             some (pyOr p.display_name p.username), none, none, false⟩],
         profile := s.profile ++ [("_id", .vOid (s.nextId + 1)) ::
           ProfileSchema.serialize ⟨p.username, some "", some "", some [],
             some "holo"⟩],
         nextId := s.nextId + 2 }) := by
  unfold signup
  rw [hfu, hfe]
  simp only [truthy, Bool.false_eq_true, if_false]
  rw [if_pos (by unfold UserSchema.valid; simp [hva, hve])]
  rfl

theorem get_profile_ok_of_mem {s : Store} {u : String} {d : Doc}
    (hd : d ∈ s.profile) (hm : Doc.get d "username" = some (.vStr u)) :
    ∃ r, get_profile s u = .ok r := by
  unfold get_profile
  rw [if_pos (truthy_findOne.mpr ⟨d, hd, docMatches_singleton.mpr hm⟩)]
  exact ⟨_, rfl⟩

/-- C1 as stated is refuted: on the empty store (no conflicting username or
email) a signup whose username has fewer than 3 characters does not succeed
— pydantic validation of the `User` raises before anything is written, so
the call surfaces an internal error and the store is unchanged. -/
theorem c1_counterexample :
    (signup Store.empty ⟨"ab", "a@b.io", "pw", none⟩).1 =
      .error ⟨500, "Internal Server Error"⟩ ∧
    (signup Store.empty ⟨"ab", "a@b.io", "pw", none⟩).2 = Store.empty := by
  constructor <;> rfl

/-- C1 (amended): for every signup call whose username has 3–30 characters
and whose email passes syntax validation, on a store containing no user with
the supplied username and none with the supplied email, the operation
succeeds: it persists exactly one user document (with `verified = false` and
`password_hash` equal to the raw password) followed by exactly one profile
document (headline `""`, about `""`, socials `{}`, theme `"holo"`), returns
the new identifier and username, and a subsequent `get_profile` for that
username succeeds. -/
theorem c1_signup_success (s : Store) (p : SignupRequest)
    (hu : ∀ d ∈ s.user, ¬ Doc.get d "username" = some (.vStr p.username))
    (he : ∀ d ∈ s.user, ¬ Doc.get d "email" = some (.vStr p.email))
    (hva : validUsername p.username = true)
    (hve : validEmail p.email = true) :
    ∃ ud pd : Doc,
      signup s p =
        (.ok ⟨oidToString s.nextId, p.username⟩,
         { s with user := s.user ++ [ud], profile := s.profile ++ [pd],
                  nextId := s.nextId + 2 }) ∧
      Doc.get ud "username" = some (.vStr p.username) ∧
      Doc.get ud "verified" = some (.vBool false) ∧
      Doc.get ud "password_hash" = some (.vStr p.password) ∧
      Doc.get pd "username" = some (.vStr p.username) ∧
      Doc.get pd "headline" = some (.vStr "") ∧
      Doc.get pd "about" = some (.vStr "") ∧
      Doc.get pd "socials" = some (.vDict []) ∧
      Doc.get pd "theme" = some (.vStr "holo") ∧
      (∃ r, get_profile (signup s p).2 p.username = .ok r) := by
  have hfu : findOne s.user [("username", .vStr p.username)] = none :=
    findOne_of_not_exists (fun d hd hm => hu d hd (docMatches_singleton.mp hm))
  have hfe : findOne s.user [("email", .vStr p.email)] = none :=
    findOne_of_not_exists (fun d hd hm => he d hd (docMatches_singleton.mp hm))
  have hs := signup_success_eq s p hfu hfe hva hve
  refine ⟨_, _, hs, ?_, ?_, ?_, ?_, ?_, ?_, ?_, ?_, ?_⟩
  · simp [UserSchema.serialize, Doc.get_cons, optStr]
  · simp [UserSchema.serialize, Doc.get_cons, optStr]
  · simp [UserSchema.serialize, Doc.get_cons, optStr]
  · simp [ProfileSchema.serialize, Doc.get_cons, optStr]
  · simp [ProfileSchema.serialize, Doc.get_cons, optStr]
  · simp [ProfileSchema.serialize, Doc.get_cons, optStr]
  · simp [ProfileSchema.serialize, Doc.get_cons, optStr]
  · simp [ProfileSchema.serialize, Doc.get_cons, optStr]
  · exact get_profile_ok_of_mem
      (d := ("_id", .vOid (s.nextId + 1)) ::
        ProfileSchema.serialize ⟨p.username, some "", some "", some [],
          some "holo"⟩)
      (by
        rw [hs]
        exact List.mem_append_right _ (List.mem_singleton.mpr rfl))
      (by simp [ProfileSchema.serialize, Doc.get_cons, optStr])

/-- Witness for C1 (amended) on the empty store. -/
theorem c1_signup_success_witness :
    ∃ ud pd : Doc,
      signup Store.empty ⟨"alice", "a@b.io", "pw", none⟩ =
        (.ok ⟨oidToString 0, "alice"⟩,
         { Store.empty with user := [] ++ [ud], profile := [] ++ [pd],
                            nextId := 0 + 2 }) ∧
      Doc.get ud "username" = some (.vStr "alice") ∧
      Doc.get ud "verified" = some (.vBool false) ∧
      Doc.get ud "password_hash" = some (.vStr "pw") ∧
      Doc.get pd "username" = some (.vStr "alice") ∧
      Doc.get pd "headline" = some (.vStr "") ∧
      Doc.get pd "about" = some (.vStr "") ∧
      Doc.get pd "socials" = some (.vDict []) ∧
      Doc.get pd "theme" = some (.vStr "holo") ∧
      (∃ r, get_profile (signup Store.empty
        ⟨"alice", "a@b.io", "pw", none⟩).2 "alice" = .ok r) :=
  c1_signup_success Store.empty ⟨"alice", "a@b.io", "pw", none⟩
    (by intro d hd; exact absurd hd (List.not_mem_nil d))
    (by intro d hd; exact absurd hd (List.not_mem_nil d))
    (by decide) (by decide)

/-- C10: supplying `display_name` as the empty string falls back to the
username (Python `or` tests truthiness, not presence): the persisted user
document is identical to the one persisted when `display_name` is
omitted. -/
theorem c10_display_name_empty (s : Store) (p : SignupRequest)
    (hu : ∀ d ∈ s.user, ¬ Doc.get d "username" = some (.vStr p.username))
    (he : ∀ d ∈ s.user, ¬ Doc.get d "email" = some (.vStr p.email))
    (hva : validUsername p.username = true)
    (hve : validEmail p.email = true)
    (hd : p.display_name = some "") :
    ∃ ud : Doc,
      (signup s p).2.user = s.user ++ [ud] ∧
      Doc.get ud "display_name" = some (.vStr p.username) ∧
      (signup s ⟨p.username, p.email, p.password, none⟩).2.user =
        s.user ++ [ud] := by
  have hfu : findOne s.user [("username", .vStr p.username)] = none :=
    findOne_of_not_exists (fun d hd' hm =>
      hu d hd' (docMatches_singleton.mp hm))
  have hfe : findOne s.user [("email", .vStr p.email)] = none :=
    findOne_of_not_exists (fun d hd' hm =>
      he d hd' (docMatches_singleton.mp hm))
  have hs := signup_success_eq s p hfu hfe hva hve
  have hs' := signup_success_eq s ⟨p.username, p.email, p.password, none⟩
    hfu hfe hva hve
  have hpy : pyOr p.display_name p.username = p.username := by
    rw [hd]
    rfl
  refine ⟨("_id", .vOid s.nextId) ::
    UserSchema.serialize ⟨p.username, p.email, p.password,
      some p.username, none, none, false⟩, ?_, ?_, ?_⟩
  · rw [hs, hpy]
  · simp [UserSchema.serialize, Doc.get_cons, optStr]
  · rw [hs']
    rfl

/-- Witness for C10: signing up with `display_name = ""` stores the
username as display name, exactly as omitting it would. -/
theorem c10_display_name_empty_witness :
    ∃ ud : Doc,
      (signup Store.empty ⟨"alice", "a@b.io", "pw", some ""⟩).2.user =
        [] ++ [ud] ∧
      Doc.get ud "display_name" = some (.vStr "alice") ∧
      (signup Store.empty ⟨"alice", "a@b.io", "pw", none⟩).2.user =
        [] ++ [ud] :=
  c10_display_name_empty Store.empty ⟨"alice", "a@b.io", "pw", some ""⟩
    (by intro d hd; exact absurd hd (List.not_mem_nil d))
    (by intro d hd; exact absurd hd (List.not_mem_nil d))
    (by decide) (by decide) rfl

/-- Every key of a merge-patch is one of the four updatable profile
fields. -/
theorem ProfileUpdate.patch_keys (p : ProfileUpdate) :
    ∀ kv ∈ p.patch, kv.1 = "headline" ∨ kv.1 = "about" ∨
      kv.1 = "socials" ∨ kv.1 = "theme" := by
  intro kv hkv
  unfold ProfileUpdate.patch at hkv
  rcases List.mem_append.mp hkv with h | h
  · rcases List.mem_append.mp h with h | h
    · rcases List.mem_append.mp h with h | h
      · left
        revert h
        cases p.headline <;> intro h <;> simp_all
      · right; left
        revert h
        cases p.about <;> intro h <;> simp_all
    · right; right; left
      revert h
      cases p.socials <;> intro h <;> simp_all
  · right; right; right
    revert h
    cases p.theme <;> intro h <;> simp_all

/-- The keys of the effective `$set` document (merge-patch plus freshly
stamped `updated_at`) are pairwise distinct. -/
theorem ProfileUpdate.patch_nodup (p : ProfileUpdate) (v : Value) :
    (((p.patch ++ [("updated_at", v)]).map Prod.fst)).Nodup := by
  obtain ⟨o1, o2, o3, o4⟩ := p
  unfold ProfileUpdate.patch
  cases o1 <;> cases o2 <;> cases o3 <;> cases o4 <;> simp

theorem findOne_updateOne {filt u : Doc} :
    ∀ {coll : List Doc} {d : Doc}, findOne coll filt = some d →
      docMatches (Doc.setFields d u) filt = true →
      findOne (updateOne coll filt u) filt = some (Doc.setFields d u) := by
  intro coll
  induction coll with
  | nil =>
    intro d h _
    exact absurd h (by simp [findOne])
  | cons c rest ih =>
    intro d h hm
    unfold updateOne
    by_cases hc : docMatches c filt = true
    · rw [if_pos hc]
      have hd : c = d := by
        unfold findOne at h
        simp only [List.find?_cons, hc] at h
        exact Option.some.inj h
      subst hd
      unfold findOne
      simp only [List.find?_cons, hm]
    · rw [if_neg hc]
      have hc' : docMatches c filt = false := by
        rw [Bool.eq_false_iff]
        exact hc
      unfold findOne at h ⊢
      simp only [List.find?_cons, hc'] at h ⊢
      exact ih h hm

/-- C6: on an existing profile, `update_profile` applies exactly the present,
non-null patch fields, stamps `updated_at` when the patch is non-empty, and
performs no write at all — returning the stored profile unchanged — when the
patch is empty.  All fields outside the patch (and `updated_at`) keep their
prior value. -/
theorem c6_update_profile (s : Store) (username : String)
    (p : ProfileUpdate) (now : Nat) (d : Doc)
    (hf : findOne s.profile [("username", .vStr username)] = some d) :
    (p.patch = [] →
      update_profile s username p now = (.ok (to_public d), s)) ∧
    (p.patch ≠ [] →
      ∃ d' : Doc,
        update_profile s username p now =
          (.ok (to_public d'),
           { s with profile := patchedProfiles s username p now }) ∧
        d' = Doc.setFields d (p.patch ++ [("updated_at", .vTime now)]) ∧
        (∀ kv ∈ p.patch, Doc.get d' kv.1 = some kv.2) ∧
        Doc.get d' "updated_at" = some (.vTime now) ∧
        (∀ k : String, (∀ kv ∈ p.patch, kv.1 ≠ k) → k ≠ "updated_at" →
          Doc.get d' k = Doc.get d k)) := by
  have hm0 : docMatches d [("username", .vStr username)] = true := by
    have := List.find?_some hf
    exact this
  have hget0 : Doc.get d "username" = some (.vStr username) :=
    docMatches_singleton.mp hm0
  have ht : truthy (findOne s.profile [("username", .vStr username)]) =
      true := by
    rw [hf]
    exact truthy_some.mpr (ne_nil_of_get_eq_some hget0)
  constructor
  · intro hp
    unfold update_profile
    rw [if_pos ht, if_pos (by rw [hp]; rfl), hf]
    rfl
  · intro hp
    have hkeys : ∀ kv ∈ p.patch ++ [("updated_at", Value.vTime now)],
        kv.1 ≠ "username" := by
      intro kv hkv
      rcases List.mem_append.mp hkv with h | h
      · rcases ProfileUpdate.patch_keys p kv h with h' | h' | h' | h' <;>
          rw [h'] <;> decide
      · rw [List.mem_singleton.mp h]
        simp
    have hmatch : docMatches
        (Doc.setFields d (p.patch ++ [("updated_at", .vTime now)]))
        [("username", .vStr username)] = true := by
      rw [docMatches_singleton,
        Doc.get_setFields_not_mem _ _ hkeys]
      exact hget0
    unfold update_profile
    rw [if_pos ht,
      if_neg (by rw [isEmpty_false_of_ne_nil hp]; exact Bool.false_ne_true)]
    have hfind : findOne (patchedProfiles s username p now)
        [("username", .vStr username)] =
        some (Doc.setFields d (p.patch ++ [("updated_at", .vTime now)])) :=
      findOne_updateOne hf hmatch
    refine ⟨Doc.setFields d (p.patch ++ [("updated_at", .vTime now)]),
      ?_, rfl, ?_, ?_, ?_⟩
    · rw [hfind]
      rfl
    · intro kv hkv
      have : (kv.1, kv.2) ∈ p.patch ++ [("updated_at", Value.vTime now)] :=
        List.mem_append_left _ (by simpa using hkv)
      exact Doc.get_setFields_mem _ d (ProfileUpdate.patch_nodup p _) this
    · exact Doc.get_setFields_mem _ d (ProfileUpdate.patch_nodup p _)
        (List.mem_append_right _ (List.mem_singleton.mpr rfl))
    · intro k hk hk2
      refine Doc.get_setFields_not_mem _ d ?_
      intro kv hkv
      rcases List.mem_append.mp hkv with h | h
      · exact hk kv h
      · rw [List.mem_singleton.mp h]
        exact fun he => hk2 he.symm

/-- Witness for C6: an empty patch leaves the store and the profile
(including `updated_at`) untouched; the theorem applied to a one-profile
store. -/
theorem c6_update_profile_witness :
    update_profile
        ⟨[], [[("_id", Value.vOid 0), ("username", Value.vStr "u"),
               ("headline", Value.vStr "h")]], [], [], 1⟩
        "u" ⟨none, none, none, none⟩ 42 =
      (.ok (to_public [("_id", Value.vOid 0), ("username", Value.vStr "u"),
               ("headline", Value.vStr "h")]),
       ⟨[], [[("_id", Value.vOid 0), ("username", Value.vStr "u"),
              ("headline", Value.vStr "h")]], [], [], 1⟩) :=
  (c6_update_profile _ "u" ⟨none, none, none, none⟩ 42 _ (by decide)).1
    (by decide)

/-- C5: `get_profile` fails with 404 exactly when no profile for the username
exists; on success it returns the first matching profile publicly, joined
with all of the user's projects ordered by `featured` descending (ties in
store order) and exactly the user's `published = true` blogs ordered by
`published_at` descending. -/
theorem c5_get_profile (s : Store) (u : String) :
    ((∀ d ∈ s.profile, ¬ Doc.get d "username" = some (.vStr u)) →
      get_profile s u = .error ⟨404, "Profile not found"⟩) ∧
    (∀ pd : Doc, findOne s.profile [("username", .vStr u)] = some pd →
      ∃ projs blogs : List Doc,
        get_profile s u =
          .ok ⟨to_public pd, projs.map to_public, blogs.map to_public⟩ ∧
        List.Perm projs (findAll s.project [("username", .vStr u)]) ∧
        projs.Sorted (fun d1 d2 => keyGE "featured" d1 d2 = true) ∧
        (∀ v : Option Value,
          projs.filter (fun d => decide (Doc.get d "featured" = v)) =
            (findAll s.project [("username", .vStr u)]).filter
              (fun d => decide (Doc.get d "featured" = v))) ∧
        (∀ d ∈ projs, Doc.get d "username" = some (.vStr u)) ∧
        (∀ d ∈ s.project, Doc.get d "username" = some (.vStr u) →
          d ∈ projs) ∧
        List.Perm blogs (findAll s.blog
          [("username", .vStr u), ("published", .vBool true)]) ∧
        blogs.Sorted (fun d1 d2 => keyGE "published_at" d1 d2 = true) ∧
        (∀ v : Option Value,
          blogs.filter (fun d => decide (Doc.get d "published_at" = v)) =
            (findAll s.blog
              [("username", .vStr u), ("published", .vBool true)]).filter
              (fun d => decide (Doc.get d "published_at" = v))) ∧
        (∀ d ∈ blogs, Doc.get d "username" = some (.vStr u) ∧
          Doc.get d "published" = some (.vBool true)) ∧
        (∀ d ∈ s.blog, Doc.get d "username" = some (.vStr u) →
          Doc.get d "published" = some (.vBool true) → d ∈ blogs)) := by
  constructor
  · intro h
    unfold get_profile
    rw [findOne_of_not_exists
      (fun d hd hm => h d hd (docMatches_singleton.mp hm))]
    rfl
  · intro pd hpd
    have hm0 : docMatches pd [("username", .vStr u)] = true := by
      have := List.find?_some hpd
      exact this
    have ht : truthy (findOne s.profile [("username", .vStr u)]) = true := by
      rw [hpd]
      exact truthy_some.mpr
        (ne_nil_of_get_eq_some (docMatches_singleton.mp hm0))
    refine ⟨sortDescBy "featured"
        (findAll s.project [("username", .vStr u)]),
      sortDescBy "published_at"
        (findAll s.blog [("username", .vStr u), ("published", .vBool true)]),
      ?_, sortDescBy_perm _ _, sortDescBy_sorted _ _,
      (fun v => sortDescBy_stable _ _ v), ?_, ?_,
      sortDescBy_perm _ _, sortDescBy_sorted _ _,
      (fun v => sortDescBy_stable _ _ v), ?_, ?_⟩
    · unfold get_profile
      rw [if_pos ht, hpd]
      rfl
    · intro d hd
      have hm := List.mem_filter.mp
        (((sortDescBy_perm "featured" _).mem_iff).mp hd)
      exact docMatches_singleton.mp hm.2
    · intro d hd hg
      exact ((sortDescBy_perm "featured" _).mem_iff).mpr
        (List.mem_filter.mpr ⟨hd, docMatches_singleton.mpr hg⟩)
    · intro d hd
      have hm := List.mem_filter.mp
        (((sortDescBy_perm "published_at" _).mem_iff).mp hd)
      exact docMatches_pair.mp hm.2
    · intro d hd hg hpub
      exact ((sortDescBy_perm "published_at" _).mem_iff).mpr
        (List.mem_filter.mpr ⟨hd, docMatches_pair.mpr ⟨hg, hpub⟩⟩)

/-- A small concrete store exercising `get_profile`: one profile, two
projects (featured and not), one published blog. -/
def c5Store : Store :=
  ⟨[], [[("username", Value.vStr "u")]],
   [[("username", Value.vStr "u"), ("featured", Value.vBool false)],
    [("username", Value.vStr "u"), ("featured", Value.vBool true)]],
   [[("username", Value.vStr "u"), ("published", Value.vBool true),
     ("published_at", Value.vTime 3)]], 9⟩

/-- Witness for C5: 404 on the empty store; on `c5Store`, the success branch
with all the ordering and membership guarantees. -/
theorem c5_get_profile_witness :
    (get_profile Store.empty "u" = .error ⟨404, "Profile not found"⟩) ∧
    (∃ projs blogs : List Doc,
      get_profile c5Store "u" =
        .ok ⟨to_public [("username", Value.vStr "u")],
             projs.map to_public, blogs.map to_public⟩ ∧
      List.Perm projs (findAll c5Store.project
        [("username", .vStr "u")]) ∧
      projs.Sorted (fun d1 d2 => keyGE "featured" d1 d2 = true) ∧
      (∀ v : Option Value,
        projs.filter (fun d => decide (Doc.get d "featured" = v)) =
          (findAll c5Store.project [("username", .vStr "u")]).filter
            (fun d => decide (Doc.get d "featured" = v))) ∧
      (∀ d ∈ projs, Doc.get d "username" = some (.vStr "u")) ∧
      (∀ d ∈ c5Store.project, Doc.get d "username" = some (.vStr "u") →
        d ∈ projs) ∧
      List.Perm blogs (findAll c5Store.blog
        [("username", .vStr "u"), ("published", .vBool true)]) ∧
      blogs.Sorted (fun d1 d2 => keyGE "published_at" d1 d2 = true) ∧
      (∀ v : Option Value,
        blogs.filter (fun d => decide (Doc.get d "published_at" = v)) =
          (findAll c5Store.blog
            [("username", .vStr "u"), ("published", .vBool true)]).filter
            (fun d => decide (Doc.get d "published_at" = v))) ∧
      (∀ d ∈ blogs, Doc.get d "username" = some (.vStr "u") ∧
        Doc.get d "published" = some (.vBool true)) ∧
      (∀ d ∈ c5Store.blog, Doc.get d "username" = some (.vStr "u") →
        Doc.get d "published" = some (.vBool true) → d ∈ blogs)) :=
  ⟨(c5_get_profile Store.empty "u").1
      (fun d hd => absurd hd (List.not_mem_nil d)),
   (c5_get_profile c5Store "u").2 [("username", Value.vStr "u")] (by decide)⟩

theorem findOne_append_of_none {l1 l2 : List Doc} {f : Doc}
    (h : findOne l1 f = none) : findOne (l1 ++ l2) f = findOne l2 f := by
  unfold findOne at h ⊢
  rw [List.find?_append, h]
  rfl

/-- C7 as stated is refuted: `create_blog` performs no slug-uniqueness check,
so when a published blog with the same username and slug already exists,
`get_blog` after creating the draft returns the earlier document — which
carries a `published_at` timestamp — rather than the new draft. -/
theorem c7_counterexample :
    (match get_blog
        (create_blog
          (create_blog Store.empty "u" ⟨"s", "old", "c", none, true⟩ 5).2
          "u" ⟨"s", "new", "c2", none, false⟩ 9).2 "u" "s" with
      | .ok d => Doc.get d "published_at"
      | .error _ => none) = some (.vTime 5) ∧
    (match get_blog
        (create_blog
          (create_blog Store.empty "u" ⟨"s", "old", "c", none, true⟩ 5).2
          "u" ⟨"s", "new", "c2", none, false⟩ 9).2 "u" "s" with
      | .ok d => Doc.get d "title"
      | .error _ => none) = some (.vStr "old") := by
  constructor <;> decide

/-- C7 (amended): `create_blog` with `published = true` stamps the stored
blog's `published_at` with the current time; with `published = false` the
stored blog carries no timestamp under `published_at` (the field is null),
a subsequent `get_blog` — provided no blog with that username and slug
already existed in the store — returns exactly that document publicly, still
with a null `published_at`, and the new blog is excluded from `list_blogs`
under the default `published_only = true`. -/
theorem c7_create_blog (s : Store) (u : String) (p : BlogCreate)
    (now : Nat) :
    (p.published = true →
      ∃ d : Doc, (create_blog s u p now).2.blog = s.blog ++ [d] ∧
        Doc.get d "published_at" = some (.vTime now)) ∧
    (p.published = false →
      ∃ d : Doc, (create_blog s u p now).2.blog = s.blog ++ [d] ∧
        Doc.get d "published_at" = some .vNull ∧
        (∀ t : Nat, ¬ Doc.get d "published_at" = some (.vTime t)) ∧
        ((∀ d0 ∈ s.blog, ¬ (Doc.get d0 "username" = some (.vStr u) ∧
            Doc.get d0 "slug" = some (.vStr p.slug))) →
          get_blog (create_blog s u p now).2 u p.slug = .ok (to_public d) ∧
          Doc.get (to_public d) "published_at" = some .vNull) ∧
        to_public d ∉ list_blogs (create_blog s u p now).2 u true) := by
  constructor
  · intro hp
    refine ⟨("_id", .vOid s.nextId) ::
      BlogSchema.serialize ⟨u, p.slug, p.title, p.content, p.cover_image,
        p.published, if p.published then some now else none⟩, rfl, ?_⟩
    simp [BlogSchema.serialize, Doc.get_cons, hp]
  · intro hp
    refine ⟨("_id", .vOid s.nextId) ::
      BlogSchema.serialize ⟨u, p.slug, p.title, p.content, p.cover_image,
        p.published, if p.published then some now else none⟩, rfl,
      ?_, ?_, ?_, ?_⟩
    · simp [BlogSchema.serialize, Doc.get_cons, hp]
    · intro t
      simp [BlogSchema.serialize, Doc.get_cons, hp]
    · intro h0
      have hm : docMatches (("_id", Value.vOid s.nextId) ::
          BlogSchema.serialize ⟨u, p.slug, p.title, p.content, p.cover_image,
            p.published, if p.published then some now else none⟩)
          [("username", .vStr u), ("slug", .vStr p.slug)] = true := by
        rw [docMatches_pair]
        constructor <;> simp [BlogSchema.serialize, Doc.get_cons]
      have hnone : findOne s.blog
          [("username", .vStr u), ("slug", .vStr p.slug)] = none :=
        findOne_of_not_exists (fun d0 hd0 hm0 =>
          h0 d0 hd0 (docMatches_pair.mp hm0))
      have hfind : findOne (create_blog s u p now).2.blog
          [("username", .vStr u), ("slug", .vStr p.slug)] =
          some (("_id", Value.vOid s.nextId) ::
            BlogSchema.serialize ⟨u, p.slug, p.title, p.content,
              p.cover_image, p.published,
              if p.published then some now else none⟩) := by
        show findOne (s.blog ++ [_]) _ = _
        rw [findOne_append_of_none hnone]
        unfold findOne
        simp only [List.find?_cons, hm]
      constructor
      · unfold get_blog
        rw [hfind, if_pos (truthy_some.mpr (by
          intro he
          exact List.noConfusion he))]
        rfl
      · rw [to_public_get_other (by decide) (by decide)]
        simp [BlogSchema.serialize, Doc.get_cons, hp]
    · intro hmem
      obtain ⟨x, hx, hxe⟩ := List.mem_map.mp hmem
      have hx' := ((sortDescBy_perm "published_at" _).mem_iff).mp hx
      have hmx := (List.mem_filter.mp hx').2
      have hpub : Doc.get x "published" = some (.vBool true) :=
        (docMatches_pair.mp hmx).2
      have h1 : Doc.get (to_public x) "published" =
          Doc.get (to_public (("_id", Value.vOid s.nextId) ::
            BlogSchema.serialize ⟨u, p.slug, p.title, p.content,
              p.cover_image, p.published,
              if p.published then some now else none⟩)) "published" := by
        rw [hxe]
      rw [to_public_get_other (by decide) (by decide),
        to_public_get_other (by decide) (by decide), hpub] at h1
      rw [show Doc.get (("_id", Value.vOid s.nextId) ::
          BlogSchema.serialize ⟨u, p.slug, p.title, p.content,
            p.cover_image, p.published,
            if p.published then some now else none⟩) "published" =
          some (.vBool false) by
        simp [BlogSchema.serialize, Doc.get_cons, hp]] at h1
      simp at h1

/-- Witness for C7 (amended): a published blog created at time 5 carries the
timestamp; a draft on the fresh store carries null, is returned by
`get_blog` with null `published_at`, and is invisible to `list_blogs`. -/
theorem c7_create_blog_witness :
    (∃ d : Doc,
      (create_blog Store.empty "u" ⟨"s", "t", "c", none, true⟩ 5).2.blog =
        [] ++ [d] ∧
      Doc.get d "published_at" = some (.vTime 5)) ∧
    (∃ d : Doc,
      (create_blog Store.empty "u" ⟨"s", "t", "c", none, false⟩ 5).2.blog =
        [] ++ [d] ∧
      Doc.get d "published_at" = some .vNull ∧
      (∀ t : Nat, ¬ Doc.get d "published_at" = some (.vTime t)) ∧
      (get_blog (create_blog Store.empty "u"
          ⟨"s", "t", "c", none, false⟩ 5).2 "u" "s" = .ok (to_public d) ∧
        Doc.get (to_public d) "published_at" = some .vNull) ∧
      to_public d ∉ list_blogs
        (create_blog Store.empty "u" ⟨"s", "t", "c", none, false⟩ 5).2
        "u" true) := by
  constructor
  · exact (c7_create_blog Store.empty "u" ⟨"s", "t", "c", none, true⟩ 5).1
      rfl
  · obtain ⟨d, h1, h2, h3, h4, h5⟩ :=
      (c7_create_blog Store.empty "u" ⟨"s", "t", "c", none, false⟩ 5).2 rfl
    exact ⟨d, h1, h2, h3,
      h4 (fun d0 hd0 => absurd hd0 (List.not_mem_nil d0)), h5⟩

/-- Well-formedness of a stored user document, per the `schemas.User`
constraints: a username of 3-30 characters and an email of valid syntax. -/
def userDocWF (d : Doc) : Prop :=
  ∃ un em : String, Doc.get d "username" = some (.vStr un) ∧
    Doc.get d "email" = some (.vStr em) ∧
    validUsername un = true ∧ validEmail em = true

theorem signup_user_mem (s : Store) (p : SignupRequest) :
    ∀ d ∈ (signup s p).2.user, d ∈ s.user ∨ userDocWF d := by
  intro d hd
  unfold signup at hd
  by_cases h1 : truthy (findOne s.user
      [("username", .vStr p.username)]) = true
  · rw [if_pos h1] at hd
    exact Or.inl hd
  · rw [if_neg h1] at hd
    by_cases h2 : truthy (findOne s.user [("email", .vStr p.email)]) = true
    · rw [if_pos h2] at hd
      exact Or.inl hd
    · rw [if_neg h2] at hd
      by_cases h3 : UserSchema.valid
          ⟨p.username, p.email, p.password,
           some (pyOr p.display_name p.username), none, none, false⟩ = true
      · rw [if_pos h3] at hd
        rcases List.mem_append.mp hd with h' | h'
        · exact Or.inl h'
        · refine Or.inr ⟨p.username, p.email, ?_, ?_, ?_, ?_⟩
          · rw [List.mem_singleton.mp h']
            simp [UserSchema.serialize, Doc.get_cons]
          · rw [List.mem_singleton.mp h']
            simp [UserSchema.serialize, Doc.get_cons]
          · exact (Bool.and_eq_true .. ▸ h3).1
          · exact (Bool.and_eq_true .. ▸ h3).2
      · rw [if_neg h3] at hd
        exact Or.inl hd

theorem update_profile_user_eq (s : Store) (u : String) (p : ProfileUpdate)
    (now : Nat) : (update_profile s u p now).2.user = s.user := by
  unfold update_profile
  split
  · split <;> rfl
  · rfl

theorem create_project_user_eq (s : Store) (u : String) (p : ProjectCreate) :
    (create_project s u p).2.user = s.user := rfl

theorem delete_project_user_eq (s : Store) (u pid : String) :
    (delete_project s u pid).2.user = s.user := by
  unfold delete_project
  split
  · rfl
  · show (if _ = 0 then _ else _ : Except HErr Bool × Store).2.user = s.user
    split <;> rfl

theorem create_blog_user_eq (s : Store) (u : String) (p : BlogCreate)
    (now : Nat) : (create_blog s u p now).2.user = s.user := rfl

theorem reachable_user_wf :
    ∀ {s : Store}, Reachable s → ∀ d ∈ s.user, userDocWF d := by
  intro s h
  induction h with
  | init =>
    intro d hd
    exact absurd hd (List.not_mem_nil d)
  | signup s0 p _ ih =>
    intro d hd
    rcases signup_user_mem s0 p d hd with h' | h'
    · exact ih d h'
    · exact h'
  | update_profile s0 u p now _ ih =>
    intro d hd
    rw [update_profile_user_eq] at hd
    exact ih d hd
  | create_project s0 u p _ ih =>
    intro d hd
    rw [create_project_user_eq] at hd
    exact ih d hd
  | delete_project s0 u pid _ ih =>
    intro d hd
    rw [delete_project_user_eq] at hd
    exact ih d hd
  | create_blog s0 u p now _ ih =>
    intro d hd
    rw [create_blog_user_eq] at hd
    exact ih d hd

/-- C9: in every store state reachable through the exposed operations, each
stored user document has a username of 3-30 characters and an email of valid
syntax; no exposed operation other than signup writes the user collection,
and signup can only add well-formed user documents. -/
theorem c9_user_invariant (s : Store) :
    (∀ p : SignupRequest, ∀ d ∈ (signup s p).2.user,
      d ∈ s.user ∨ userDocWF d) ∧
    (∀ (u : String) (p : ProfileUpdate) (now : Nat),
      (update_profile s u p now).2.user = s.user) ∧
    (∀ (u : String) (p : ProjectCreate),
      (create_project s u p).2.user = s.user) ∧
    (∀ (u pid : String), (delete_project s u pid).2.user = s.user) ∧
    (∀ (u : String) (p : BlogCreate) (now : Nat),
      (create_blog s u p now).2.user = s.user) ∧
    (Reachable s → ∀ d ∈ s.user, userDocWF d) :=
  ⟨fun p => signup_user_mem s p,
   fun u p now => update_profile_user_eq s u p now,
   fun u p => create_project_user_eq s u p,
   fun u pid => delete_project_user_eq s u pid,
   fun u p now => create_blog_user_eq s u p now,
   fun h => reachable_user_wf h⟩

/-- Witness for C9: the user document persisted by a concrete signup on the
empty store is well formed. -/
theorem c9_user_invariant_witness :
    userDocWF (("_id", Value.vOid 0) ::
      UserSchema.serialize
        ⟨"alice", "a@b.io", "pw", some "alice", none, none, false⟩) :=
  (c9_user_invariant
      (signup Store.empty ⟨"alice", "a@b.io", "pw", none⟩).2).2.2.2.2.2
    (Reachable.signup Store.empty ⟨"alice", "a@b.io", "pw", none⟩
      Reachable.init)
    (("_id", Value.vOid 0) ::
      UserSchema.serialize
        ⟨"alice", "a@b.io", "pw", some "alice", none, none, false⟩)
    (by decide)

end Portfolio
